import Mathlib

/-!
Verification of the plotting module of impedance.py.

The module has two renderers:
* `plot_nyquist` (matplotlib): draws `-Im(Z)` against `Re(Z)` on a
  caller-supplied axes object and applies fixed formatting, including a
  `FixedOrderFormatter` pinned to `-log10(scale)` on both axes.
* `plot_altair` (altair): flattens a dict of named datasets into one table,
  computes a shared square Nyquist domain, builds per-marker-style sub-charts
  ("line" for fmt "-", "point" for fmt "o"), and composes
  `(bode_mag & bode_phs) | nyquist`.

Numeric data is embedded with exact rationals.  The Vega expression strings
passed to `transform_calculate` are embedded as a small expression AST
(`VExpr`) whose evaluation maps `sqrt` to `Real.sqrt` and `atan` to
`Real.arctan`.  Purely cosmetic encodings (colors, legend, the hover-size
condition values 80/30) are not modelled; marks, scales, domains, sizes,
selections, interactivity, transforms and the data bound to each sub-chart
are.
-/

/-- A complex impedance sample, with exact rational real and imaginary parts
(models one entry of the numpy complex array `Z`). -/
structure Cplx where
  re : ℚ
  im : ℚ
deriving DecidableEq, Repr

/-- One named dataset of `plot_altair`'s `data_dict`: frequency array `f`,
impedance array `Z`, and the optional marker-style tag `fmt`
(`data_dict[kind].get("fmt", "o")` defaults it to "o"). -/
structure Dataset where
  f : List ℚ
  Z : List Cplx
  fmt : Option String
deriving DecidableEq

/-- One row of the flattened table `Z_df` with columns
`f, z_real, z_imag, kind, fmt`. -/
structure Row where
  f : ℚ
  z_real : ℚ
  z_imag : ℚ
  kind : String
  fmt : String
deriving DecidableEq, Repr

/-- The rows contributed by one named dataset, as built by
`pd.DataFrame({'f': f, 'z_real': Z.real, 'z_imag': Z.imag, 'kind': kind,
'fmt': fmt})`: frequencies and impedances are index-aligned, and the `fmt`
column is the dataset tag with default "o". -/
def datasetRows (kind : String) (ds : Dataset) : List Row :=
  (ds.f.zip ds.Z).map fun p =>
    { f := p.1, z_real := p.2.re, z_imag := p.2.im,
      kind := kind, fmt := ds.fmt.getD "o" }

/-- The flattened table `Z_df`: the datasets' rows appended in mapping order
(the `Z_df = Z_df.append(df)` loop). -/
def flattenData (data : List (String × Dataset)) : List Row :=
  data.flatMap fun p => datasetRows p.1 p.2

/-- Vega expression AST covering the strings passed to
`transform_calculate` ("-datum.z_imag",
"sqrt(pow(datum.z_real,2) + pow(datum.z_imag,2))",
"-atan(datum.z_imag/datum.z_real)"). -/
inductive VExpr where
  | num (q : ℚ)
  | field (name : String)
  | neg (e : VExpr)
  | add (a b : VExpr)
  | div (a b : VExpr)
  | pow (e : VExpr) (n : ℕ)
  | sqrt (e : VExpr)
  | atan (e : VExpr)
deriving DecidableEq

/-- `datum.<name>` lookup in a row of the flattened table. -/
def Row.lookup (r : Row) : String → ℚ
  | "f" => r.f
  | "z_real" => r.z_real
  | "z_imag" => r.z_imag
  | _ => 0

/-- Evaluation of a Vega expression at one row, over the reals:
`sqrt` is `Real.sqrt` and `atan` is the single-argument `Real.arctan`. -/
noncomputable def VExpr.eval (r : Row) : VExpr → ℝ
  | .num q => (q : ℝ)
  | .field n => ((r.lookup n : ℚ) : ℝ)
  | .neg e => -(e.eval r)
  | .add a b => a.eval r + b.eval r
  | .div a b => a.eval r / b.eval r
  | .pow e n => (e.eval r) ^ n
  | .sqrt e => Real.sqrt (e.eval r)
  | .atan e => Real.arctan (e.eval r)

/-- The transform `neg_z_imag = "-datum.z_imag"`. -/
def negImagExpr : VExpr := .neg (.field "z_imag")

/-- The transform `mag = "sqrt(pow(datum.z_real,2) + pow(datum.z_imag,2))"`. -/
def magExpr : VExpr :=
  .sqrt (.add (.pow (.field "z_real") 2) (.pow (.field "z_imag") 2))

/-- The transform `neg_phase = "-atan(datum.z_imag/datum.z_real)"`. -/
def negPhaseExpr : VExpr :=
  .neg (.atan (.div (.field "z_imag") (.field "z_real")))

/-- An `alt.Scale` as configured here: optional explicit domain, log type,
`nice` flag, optional padding. -/
structure ScaleSpec where
  domain : Option (ℚ × ℚ)
  logScale : Bool
  nice : Bool
  padding : Option ℚ
deriving DecidableEq

/-- The scale of an encoding that passes no `alt.Scale` (altair defaults). -/
def defaultScale : ScaleSpec :=
  { domain := none, logScale := false, nice := true, padding := none }

/-- An `alt.selection_single` value (`onEvent` carries the `on=` argument,
since `on` is a Lean keyword). -/
structure Selection where
  onEvent : String
  nearest : Bool
  empty : String
  fields : List String
deriving DecidableEq

/-- The shared hover selection
`alt.selection_single(on='mouseover', nearest=True, empty='none',
fields=['f'])`. -/
def nearestSelection : Selection :=
  { onEvent := "mouseover", nearest := true, empty := "none", fields := ["f"] }

/-- The mark of a sub-chart: `mark_line()` or `mark_circle()`. -/
inductive Mark where
  | line
  | circle
deriving DecidableEq

/-- One altair sub-chart as built in `plot_altair`: its bound data, mark,
x/y encodings with scales, size, attached `transform_calculate` fields,
attached selection (if `add_selection` was called) and whether
`.interactive()` was called. -/
structure SubChart where
  data : List Row
  mark : Mark
  xField : String
  xTitle : String
  xScale : ScaleSpec
  yField : String
  yTitle : String
  yScale : ScaleSpec
  width : ℚ
  height : ℚ
  transforms : List (String × VExpr)
  sel : Option Selection
  zoomable : Bool
deriving DecidableEq

/-- Chart composition: `alt.layer(*cs)`, `&` (vertical concat) and
`|` (horizontal concat). -/
inductive Chart where
  | layer (cs : List SubChart)
  | vconcat (top bot : Chart)
  | hconcat (left right : Chart)

/-- All sub-charts appearing anywhere in a composed chart. -/
def Chart.subCharts : Chart → List SubChart
  | .layer cs => cs
  | .vconcat a b => a.subCharts ++ b.subCharts
  | .hconcat a b => a.subCharts ++ b.subCharts

/-- Maximum of a list of rationals (`max` of a pandas column; the source
only evaluates it on a non-empty table, where Python's `max` is defined). -/
def listMax : List ℚ → ℚ
  | [] => 0
  | x :: xs => xs.foldl max x

/-- Minimum of a list of rationals (`min` of a pandas column). -/
def listMin : List ℚ → ℚ
  | [] => 0
  | x :: xs => xs.foldl min x

/-- `range_x = max(Z_df['z_real']) - min(Z_df['z_real'])`. -/
def realPartRange (rows : List Row) : ℚ :=
  listMax (rows.map Row.z_real) - listMin (rows.map Row.z_real)

/-- `range_y = max(-Z_df['z_imag']) - min(-Z_df['z_imag'])`. -/
def negImagRange (rows : List Row) : ℚ :=
  listMax (rows.map fun r => -r.z_imag) - listMin (rows.map fun r => -r.z_imag)

/-- `rng = max(range_x, range_y)`: the shared square span. -/
def nyqSpan (rows : List Row) : ℚ :=
  max (realPartRange rows) (negImagRange rows)

/-- `min_x = min(Z_df['z_real'])`. -/
def nyqMinX (rows : List Row) : ℚ :=
  listMin (rows.map Row.z_real)

/-- `min_y = min(-Z_df['z_imag'])`. -/
def nyqMinY (rows : List Row) : ℚ :=
  listMin (rows.map fun r => -r.z_imag)

/-- `fmts = Z_df['fmt'].unique()`. -/
def rowFmts (rows : List Row) : List String :=
  (rows.map Row.fmt).dedup

/-- A Nyquist sub-chart: `z_real` on x and the computed `neg_z_imag` on y,
both with the shared explicit domain, `nice=False`, `padding=5`, square
`size` x `size`, and the `neg_z_imag` transform. -/
def mkNyquistChart (df : List Row) (m : Mark) (min_x max_x min_y max_y size : ℚ)
    (s : Option Selection) (zoom : Bool) : SubChart :=
  { data := df, mark := m,
    xField := "z_real", xTitle := "Z\x27 [Ω]",
    xScale := { domain := some (min_x, max_x), logScale := false,
                nice := false, padding := some 5 },
    yField := "neg_z_imag", yTitle := "-Z\x27\x27 [Ω]",
    yScale := { domain := some (min_y, max_y), logScale := false,
                nice := false, padding := some 5 },
    width := size, height := size,
    transforms := [("neg_z_imag", negImagExpr)],
    sel := s, zoomable := zoom }

/-- A Bode sub-chart: log-scaled `f` on x, the computed field `yF` (either
`mag` or `neg_phase`) on y, size `size` x `size/2 - 25`, and the `mag` and
`neg_phase` transforms. -/
def mkBodeChart (df : List Row) (m : Mark) (yF yT : String) (size : ℚ)
    (s : Option Selection) (zoom : Bool) : SubChart :=
  { data := df, mark := m,
    xField := "f", xTitle := "f [Hz]",
    xScale := { domain := none, logScale := true, nice := false, padding := none },
    yField := yF, yTitle := yT,
    yScale := defaultScale,
    width := size, height := size / 2 - 25,
    transforms := [("mag", magExpr), ("neg_phase", negPhaseExpr)],
    sel := s, zoomable := zoom }

/-- The `nyquists` list: a line sub-chart when "-" occurs in the fmt column
(no selection, not interactive), then a point sub-chart when "o" occurs
(with the nearest hover selection attached and `.interactive()`). -/
def altairNyquists (rows : List Row) (size : ℚ) : List SubChart :=
  (if "-" ∈ rowFmts rows then
      [mkNyquistChart (rows.filter fun r => r.fmt = "-") .line
        (nyqMinX rows) (nyqMinX rows + nyqSpan rows)
        (nyqMinY rows) (nyqMinY rows + nyqSpan rows) size none false]
    else [])
  ++
  (if "o" ∈ rowFmts rows then
      [mkNyquistChart (rows.filter fun r => r.fmt = "o") .circle
        (nyqMinX rows) (nyqMinX rows + nyqSpan rows)
        (nyqMinY rows) (nyqMinY rows + nyqSpan rows) size
        (some nearestSelection) true]
    else [])

/-- The `bode_mags` / `bode_phss` lists (parameterised by the y field the
shared `bode` chart is re-encoded with): a line sub-chart when "-" occurs,
then a point sub-chart when "o" occurs. -/
def altairBodes (rows : List Row) (size : ℚ) (yF yT : String) : List SubChart :=
  (if "-" ∈ rowFmts rows then
      [mkBodeChart (rows.filter fun r => r.fmt = "-") .line yF yT size none false]
    else [])
  ++
  (if "o" ∈ rowFmts rows then
      [mkBodeChart (rows.filter fun r => r.fmt = "o") .circle yF yT size
        (some nearestSelection) true]
    else [])

/-- The composed result:
`(alt.layer(*bode_mags) & alt.layer(*bode_phss)) | alt.layer(*nyquists)`. -/
def altairChart (rows : List Row) (size : ℚ) : Chart :=
  .hconcat
    (.vconcat (.layer (altairBodes rows size "mag" "|Z| [Ω]"))
              (.layer (altairBodes rows size "neg_phase" "-ϕ [°]")))
    (.layer (altairNyquists rows size))

/-- `plot_altair(data_dict, size=400)`.  On an empty flattened table the
Python source raises (`max` of an empty column), modelled as `none`;
otherwise it returns the composed chart. -/
def plot_altair (data : List (String × Dataset)) (size : ℚ) : Option Chart :=
  let rows := flattenData data
  if rows = [] then none else some (altairChart rows size)

/-- A matplotlib `Line2D` as produced by `ax.plot(x, y, fmt, **kwargs)`:
the x data, y data, format string and pass-through keyword properties. -/
structure Line2D where
  xdata : List ℚ
  ydata : List ℚ
  fmt : String
  props : List (String × String)
deriving DecidableEq

/-- The `FixedOrderFormatter`: `_order_of_mag` is fixed at construction,
`orderOfMagnitude` is the attribute matplotlib consults when rendering. -/
structure FixedOrderFormatter where
  order_of_mag : ℝ
  orderOfMagnitude : ℝ

/-- `FixedOrderFormatter.__init__(order_of_mag)`: stores the constant order;
the inherited `orderOfMagnitude` attribute starts at `ScalarFormatter`'s
initial value 0. -/
def FixedOrderFormatter.init (o : ℝ) : FixedOrderFormatter :=
  { order_of_mag := o, orderOfMagnitude := 0 }

/-- The override `_set_orderOfMagnitude(self, range)` (called by matplotlib
on every redraw with the visible axis range): it ignores the range and
re-installs the constant `_order_of_mag`. -/
def FixedOrderFormatter.set_orderOfMagnitude (fo : FixedOrderFormatter)
    (_range : ℝ) : FixedOrderFormatter :=
  { fo with orderOfMagnitude := fo.order_of_mag }

/-- A matplotlib axes object, restricted to the state `plot_nyquist`
touches.  `none` in an `Option` field means "still at the matplotlib
default, not set by this code". -/
structure Axes where
  lines : List Line2D
  aspect : Option String
  xlabel : String
  ylabel : String
  tickLabelSize : Option ℚ
  xNbins : Option ℕ
  yNbins : Option ℕ
  gridAlpha : Option ℚ
  xMajorFormatter : Option FixedOrderFormatter
  yMajorFormatter : Option FixedOrderFormatter
  xOffsetTextSize : Option ℚ
  yOffsetTextSize : Option ℚ

/-- `plot_nyquist(ax, Z, scale=1, units='Ohms', fmt='.-', **kwargs)` as a
transformer of the axes state: appends the line
`(np.real(Z), -np.imag(Z), fmt, kwargs)`, sets the square aspect, the two
labels, tick label size 14, 5 tick bins per axis, grid alpha 0.5, installs
`FixedOrderFormatter(-np.log10(scale))` on both axes and sets both offset
text sizes to 18. -/
noncomputable def plot_nyquist (ax : Axes) (Z : List Cplx) (scale : ℚ)
    (units fmt : String) (kwargs : List (String × String)) : Axes :=
  { lines := ax.lines ++
      [{ xdata := Z.map Cplx.re, ydata := Z.map fun z => -z.im,
         fmt := fmt, props := kwargs }],
    aspect := some "equal",
    xlabel := "$Z^\x7b\\prime\x7d(\\omega)$ " ++ "$[" ++ units ++ "]$",
    ylabel := "$-Z^\x7b\\prime\\prime\x7d(\\omega)$ " ++ "$[" ++ units ++ "]$",
    tickLabelSize := some 14,
    xNbins := some 5,
    yNbins := some 5,
    gridAlpha := some (1 / 2),
    xMajorFormatter := some (.init (-Real.logb 10 (scale : ℝ))),
    yMajorFormatter := some (.init (-Real.logb 10 (scale : ℝ))),
    xOffsetTextSize := some 18,
    yOffsetTextSize := some 18 }

/-- `plot_nyquist` at the object level: axes objects live in a heap indexed
by identity; the call mutates the caller's axes in place and returns the
very same identity (`return ax`), allocating nothing. -/
noncomputable def plot_nyquist_obj (heap : ℕ → Option Axes) (i : ℕ)
    (Z : List Cplx) (scale : ℚ) (units fmt : String)
    (kwargs : List (String × String)) : (ℕ → Option Axes) × ℕ :=
  (fun j => if j = i then
      (heap j).map fun ax => plot_nyquist ax Z scale units fmt kwargs
    else heap j, i)

/-- Sample collection with one line-tagged and one point-tagged dataset. -/
def sampleData : List (String × Dataset) :=
  [("data", { f := [1, 10, 100], Z := [⟨100, 0⟩, ⟨80, -20⟩, ⟨60, -40⟩],
              fmt := some "-" }),
   ("fit", { f := [1, 10, 100], Z := [⟨90, -5⟩, ⟨75, -25⟩, ⟨55, -35⟩],
             fmt := some "o" })]

/-- Sample collection whose only dataset is point-tagged. -/
def allPointData : List (String × Dataset) :=
  [("measured", { f := [1, 10], Z := [⟨50, -10⟩, ⟨40, -20⟩], fmt := some "o" })]

/-- Sample collection whose only dataset carries an unrecognized tag. -/
def weirdData : List (String × Dataset) :=
  [("odd", { f := [5], Z := [⟨1, 2⟩], fmt := some "x" })]

/-- Sample collection whose only dataset omits the fmt key. -/
def noFmtData : List (String × Dataset) :=
  [("bare", { f := [3], Z := [⟨7, -8⟩], fmt := none })]

/-- A fresh axes object with nothing plotted and all formatting at the
matplotlib defaults. -/
def ax0 : Axes :=
  { lines := [], aspect := none, xlabel := "", ylabel := "",
    tickLabelSize := none, xNbins := none, yNbins := none, gridAlpha := none,
    xMajorFormatter := none, yMajorFormatter := none,
    xOffsetTextSize := none, yOffsetTextSize := none }

/-- The worked example of the spec: `Z = [100+0j, 80-20j, 60-40j]`. -/
def Zsample : List Cplx := [⟨100, 0⟩, ⟨80, -20⟩, ⟨60, -40⟩]

theorem mem_ite_append {α : Type} {b c : Prop} [Decidable b] [Decidable c]
    {x y s : α} :
    s ∈ (if b then [x] else []) ++ (if c then [y] else []) ↔
      (b ∧ s = x) ∨ (c ∧ s = y) := by
  by_cases hb : b <;> by_cases hc : c <;> simp [hb, hc]

theorem plot_altair_some {data : List (String × Dataset)} {size : ℚ}
    (hne : flattenData data ≠ []) :
    plot_altair data size = some (altairChart (flattenData data) size) := by
  simp [plot_altair, hne]

theorem subCharts_altairChart (rows : List Row) (size : ℚ) :
    (altairChart rows size).subCharts =
      (altairBodes rows size "mag" "|Z| [Ω]" ++
        altairBodes rows size "neg_phase" "-ϕ [°]") ++
      altairNyquists rows size := rfl

theorem mem_subCharts_altair {rows : List Row} {size : ℚ} {sc : SubChart} :
    sc ∈ (altairChart rows size).subCharts ↔
      sc ∈ altairBodes rows size "mag" "|Z| [Ω]" ∨
      sc ∈ altairBodes rows size "neg_phase" "-ϕ [°]" ∨
      sc ∈ altairNyquists rows size := by
  rw [subCharts_altairChart]
  simp [List.mem_append, or_assoc]

theorem mem_altairNyquists {rows : List Row} {size : ℚ} {sc : SubChart} :
    sc ∈ altairNyquists rows size ↔
      ("-" ∈ rowFmts rows ∧
        sc = mkNyquistChart (rows.filter fun r => r.fmt = "-") .line
          (nyqMinX rows) (nyqMinX rows + nyqSpan rows)
          (nyqMinY rows) (nyqMinY rows + nyqSpan rows) size none false) ∨
      ("o" ∈ rowFmts rows ∧
        sc = mkNyquistChart (rows.filter fun r => r.fmt = "o") .circle
          (nyqMinX rows) (nyqMinX rows + nyqSpan rows)
          (nyqMinY rows) (nyqMinY rows + nyqSpan rows) size
          (some nearestSelection) true) := by
  unfold altairNyquists
  exact mem_ite_append

theorem mem_altairBodes {rows : List Row} {size : ℚ} {yF yT : String}
    {sc : SubChart} :
    sc ∈ altairBodes rows size yF yT ↔
      ("-" ∈ rowFmts rows ∧
        sc = mkBodeChart (rows.filter fun r => r.fmt = "-") .line yF yT size
          none false) ∨
      ("o" ∈ rowFmts rows ∧
        sc = mkBodeChart (rows.filter fun r => r.fmt = "o") .circle yF yT size
          (some nearestSelection) true) := by
  unfold altairBodes
  exact mem_ite_append

theorem mem_rowFmts {rows : List Row} {a : String} :
    a ∈ rowFmts rows ↔ ∃ r ∈ rows, r.fmt = a := by
  simp [rowFmts, List.mem_dedup]

theorem eval_magExpr (r : Row) :
    VExpr.eval r magExpr =
      Real.sqrt ((r.z_real : ℝ) ^ 2 + (r.z_imag : ℝ) ^ 2) := rfl

theorem eval_negPhaseExpr (r : Row) :
    VExpr.eval r negPhaseExpr =
      -Real.arctan ((r.z_imag : ℝ) / (r.z_real : ℝ)) := rfl

theorem eval_negImagExpr (r : Row) :
    VExpr.eval r negImagExpr = -(r.z_imag : ℝ) := rfl

/-- C1: for any non-empty flattened dataset collection, every Nyquist
sub-chart of `plot_altair` (the sub-charts encoding `z_real` on x) carries
the x-domain anchored at the minimum real part and the y-domain anchored at
the minimum negated imaginary part, both with the same span
`max(range of real parts, range of negated imaginary parts)`; and when both
styles occur, both the line and the point Nyquist sub-charts exist and so
share this domain pair. -/
theorem nyquist_domains_square (data : List (String × Dataset)) (size : ℚ)
    (hne : flattenData data ≠ []) :
    ∃ c, plot_altair data size = some c ∧
      (∀ sc ∈ c.subCharts, sc.xField = "z_real" →
        sc.xScale.domain =
          some (nyqMinX (flattenData data),
                nyqMinX (flattenData data) + nyqSpan (flattenData data)) ∧
        sc.yScale.domain =
          some (nyqMinY (flattenData data),
                nyqMinY (flattenData data) + nyqSpan (flattenData data)) ∧
        nyqMinX (flattenData data) + nyqSpan (flattenData data) -
            nyqMinX (flattenData data) =
          nyqMinY (flattenData data) + nyqSpan (flattenData data) -
            nyqMinY (flattenData data) ∧
        nyqMinX (flattenData data) + nyqSpan (flattenData data) -
            nyqMinX (flattenData data) =
          max (realPartRange (flattenData data))
            (negImagRange (flattenData data))) ∧
      ((∃ r ∈ flattenData data, r.fmt = "-") →
        ∃ sc ∈ c.subCharts, sc.xField = "z_real" ∧ sc.mark = Mark.line) ∧
      ((∃ r ∈ flattenData data, r.fmt = "o") →
        ∃ sc ∈ c.subCharts, sc.xField = "z_real" ∧ sc.mark = Mark.circle) := by
  refine ⟨altairChart (flattenData data) size, plot_altair_some hne, ?_, ?_, ?_⟩
  · intro sc hsc hx
    rcases mem_subCharts_altair.1 hsc with h | h | h
    · rcases mem_altairBodes.1 h with ⟨-, rfl⟩ | ⟨-, rfl⟩ <;>
        simp [mkBodeChart] at hx
    · rcases mem_altairBodes.1 h with ⟨-, rfl⟩ | ⟨-, rfl⟩ <;>
        simp [mkBodeChart] at hx
    · rcases mem_altairNyquists.1 h with ⟨-, rfl⟩ | ⟨-, rfl⟩ <;>
        exact ⟨rfl, rfl, by rw [add_sub_cancel_left, add_sub_cancel_left],
          by rw [add_sub_cancel_left]; rfl⟩
  · rintro ⟨r, hr, hfmt⟩
    exact ⟨_, mem_subCharts_altair.2 (Or.inr (Or.inr
      (mem_altairNyquists.2 (Or.inl ⟨mem_rowFmts.2 ⟨r, hr, hfmt⟩, rfl⟩)))),
      rfl, rfl⟩
  · rintro ⟨r, hr, hfmt⟩
    exact ⟨_, mem_subCharts_altair.2 (Or.inr (Or.inr
      (mem_altairNyquists.2 (Or.inr ⟨mem_rowFmts.2 ⟨r, hr, hfmt⟩, rfl⟩)))),
      rfl, rfl⟩

/-- C1 witness at the two-dataset sample collection. -/
theorem nyquist_domains_square_witness :
    flattenData sampleData ≠ [] ∧
    (∃ c, plot_altair sampleData 400 = some c ∧
      (∀ sc ∈ c.subCharts, sc.xField = "z_real" →
        sc.xScale.domain =
          some (nyqMinX (flattenData sampleData),
                nyqMinX (flattenData sampleData) +
                  nyqSpan (flattenData sampleData)) ∧
        sc.yScale.domain =
          some (nyqMinY (flattenData sampleData),
                nyqMinY (flattenData sampleData) +
                  nyqSpan (flattenData sampleData)) ∧
        nyqMinX (flattenData sampleData) + nyqSpan (flattenData sampleData) -
            nyqMinX (flattenData sampleData) =
          nyqMinY (flattenData sampleData) + nyqSpan (flattenData sampleData) -
            nyqMinY (flattenData sampleData) ∧
        nyqMinX (flattenData sampleData) + nyqSpan (flattenData sampleData) -
            nyqMinX (flattenData sampleData) =
          max (realPartRange (flattenData sampleData))
            (negImagRange (flattenData sampleData))) ∧
      ((∃ r ∈ flattenData sampleData, r.fmt = "-") →
        ∃ sc ∈ c.subCharts, sc.xField = "z_real" ∧ sc.mark = Mark.line) ∧
      ((∃ r ∈ flattenData sampleData, r.fmt = "o") →
        ∃ sc ∈ c.subCharts, sc.xField = "z_real" ∧ sc.mark = Mark.circle)) :=
  ⟨by decide, nyquist_domains_square sampleData 400 (by decide)⟩

/-- C2: the line appended by `plot_nyquist` plots, element-wise and in input
order, `(Re(Z[i]), -Im(Z[i]))`: its x data are the real parts and its y data
the negated imaginary parts of `Z`. -/
theorem nyquist_plots_re_vs_neg_im (ax : Axes) (Z : List Cplx) (scale : ℚ)
    (units fmt : String) (kwargs : List (String × String)) (i : ℕ)
    (hi : i < Z.length) :
    ∃ ln : Line2D,
      (plot_nyquist ax Z scale units fmt kwargs).lines = ax.lines ++ [ln] ∧
      ln.xdata.length = Z.length ∧ ln.ydata.length = Z.length ∧
      ln.xdata[i]? = some (Z[i].re) ∧ ln.ydata[i]? = some (-(Z[i].im)) := by
  refine ⟨{ xdata := Z.map Cplx.re, ydata := Z.map fun z => -z.im,
            fmt := fmt, props := kwargs }, rfl, by simp, by simp, ?_, ?_⟩
  · simp [List.getElem?_map, List.getElem?_eq_getElem hi]
  · simp [List.getElem?_map, List.getElem?_eq_getElem hi]

/-- C2 witness at the spec's worked example, index 1: the plotted point is
`(80, 20)`. -/
theorem nyquist_plots_re_vs_neg_im_witness :
    1 < Zsample.length ∧
    (∃ ln : Line2D,
      (plot_nyquist ax0 Zsample 1 "Ohms" ".-" []).lines = ax0.lines ++ [ln] ∧
      ln.xdata.length = Zsample.length ∧ ln.ydata.length = Zsample.length ∧
      ln.xdata[1]? = some ((Zsample[1]).re) ∧
      ln.ydata[1]? = some (-((Zsample[1]).im))) :=
  ⟨by decide, nyquist_plots_re_vs_neg_im ax0 Zsample 1 "Ohms" ".-" [] 1
    (by decide)⟩

/-- C3: in `plot_altair` every phase Bode sub-chart (line- and point-styled
alike) computes its plotted value by the transform
`neg_phase = -atan(z_imag/z_real)` with the single-argument arctangent, and
that formula evaluates to `-arctan(imag/real)` on every row, including —
unchanged, with no quadrant correction — all rows with non-positive real
part. -/
theorem phase_is_single_arg_atan (data : List (String × Dataset)) (size : ℚ)
    (hne : flattenData data ≠ []) :
    ∃ c, plot_altair data size = some c ∧
      (∀ sc ∈ c.subCharts, sc.yField = "neg_phase" →
        ("neg_phase", negPhaseExpr) ∈ sc.transforms ∧
        ∀ r ∈ sc.data,
          VExpr.eval r negPhaseExpr =
            -Real.arctan ((r.z_imag : ℝ) / (r.z_real : ℝ))) ∧
      (∀ r : Row, r.z_real ≤ 0 →
        VExpr.eval r negPhaseExpr =
          -Real.arctan ((r.z_imag : ℝ) / (r.z_real : ℝ))) := by
  refine ⟨altairChart (flattenData data) size, plot_altair_some hne, ?_, ?_⟩
  · intro sc hsc hy
    rcases mem_subCharts_altair.1 hsc with h | h | h
    · rcases mem_altairBodes.1 h with ⟨-, rfl⟩ | ⟨-, rfl⟩ <;>
        simp [mkBodeChart] at hy
    · rcases mem_altairBodes.1 h with ⟨-, rfl⟩ | ⟨-, rfl⟩ <;>
        exact ⟨by simp [mkBodeChart], fun r _ => eval_negPhaseExpr r⟩
    · rcases mem_altairNyquists.1 h with ⟨-, rfl⟩ | ⟨-, rfl⟩ <;>
        simp [mkNyquistChart] at hy
  · exact fun r _ => eval_negPhaseExpr r

/-- C3 witness at the two-dataset sample collection. -/
theorem phase_is_single_arg_atan_witness :
    flattenData sampleData ≠ [] ∧
    (∃ c, plot_altair sampleData 400 = some c ∧
      (∀ sc ∈ c.subCharts, sc.yField = "neg_phase" →
        ("neg_phase", negPhaseExpr) ∈ sc.transforms ∧
        ∀ r ∈ sc.data,
          VExpr.eval r negPhaseExpr =
            -Real.arctan ((r.z_imag : ℝ) / (r.z_real : ℝ))) ∧
      (∀ r : Row, r.z_real ≤ 0 →
        VExpr.eval r negPhaseExpr =
          -Real.arctan ((r.z_imag : ℝ) / (r.z_real : ℝ)))) :=
  ⟨by decide, phase_is_single_arg_atan sampleData 400 (by decide)⟩

/-- C4: in `plot_altair` every magnitude Bode sub-chart (line- and
point-styled alike) computes its plotted value by the transform
`mag = sqrt(pow(z_real,2) + pow(z_imag,2))`, which evaluates to
`sqrt(real^2 + imag^2)` on every row of its data. -/
theorem magnitude_is_sqrt_sum_squares (data : List (String × Dataset))
    (size : ℚ) (hne : flattenData data ≠ []) :
    ∃ c, plot_altair data size = some c ∧
      ((∃ r ∈ flattenData data, r.fmt = "-" ∨ r.fmt = "o") →
        ∃ sc, sc ∈ c.subCharts ∧ sc.yField = "mag") ∧
      ∀ sc ∈ c.subCharts, sc.yField = "mag" →
        ("mag", magExpr) ∈ sc.transforms ∧
        ∀ r ∈ sc.data,
          VExpr.eval r magExpr =
            Real.sqrt ((r.z_real : ℝ) ^ 2 + (r.z_imag : ℝ) ^ 2) := by
  refine ⟨altairChart (flattenData data) size, plot_altair_some hne, ?_, ?_⟩
  · rintro ⟨r, hr, hf | ho⟩
    · exact ⟨_, mem_subCharts_altair.2 (Or.inl
        (mem_altairBodes.2 (Or.inl ⟨mem_rowFmts.2 ⟨r, hr, hf⟩, rfl⟩))), rfl⟩
    · exact ⟨_, mem_subCharts_altair.2 (Or.inl
        (mem_altairBodes.2 (Or.inr ⟨mem_rowFmts.2 ⟨r, hr, ho⟩, rfl⟩))), rfl⟩
  · intro sc hsc hy
    rcases mem_subCharts_altair.1 hsc with h | h | h
    · rcases mem_altairBodes.1 h with ⟨-, rfl⟩ | ⟨-, rfl⟩ <;>
        exact ⟨by simp [mkBodeChart], fun r _ => eval_magExpr r⟩
    · rcases mem_altairBodes.1 h with ⟨-, rfl⟩ | ⟨-, rfl⟩ <;>
        simp [mkBodeChart] at hy
    · rcases mem_altairNyquists.1 h with ⟨-, rfl⟩ | ⟨-, rfl⟩ <;>
        simp [mkNyquistChart] at hy

/-- C4 witness at the two-dataset sample collection. -/
theorem magnitude_is_sqrt_sum_squares_witness :
    flattenData sampleData ≠ [] ∧
    (∃ c, plot_altair sampleData 400 = some c ∧
      ((∃ r ∈ flattenData sampleData, r.fmt = "-" ∨ r.fmt = "o") →
        ∃ sc, sc ∈ c.subCharts ∧ sc.yField = "mag") ∧
      ∀ sc ∈ c.subCharts, sc.yField = "mag" →
        ("mag", magExpr) ∈ sc.transforms ∧
        ∀ r ∈ sc.data,
          VExpr.eval r magExpr =
            Real.sqrt ((r.z_real : ℝ) ^ 2 + (r.z_imag : ℝ) ^ 2)) :=
  ⟨by decide, magnitude_is_sqrt_sum_squares sampleData 400 (by decide)⟩

/-- C5: for a positive scale, `plot_nyquist` installs on both axes a
`FixedOrderFormatter` whose fixed order of magnitude is `-log10(scale)`,
and `_set_orderOfMagnitude` re-installs that constant on every redraw,
ignoring the visible range it is handed. -/
theorem tick_exponent_pinned (ax : Axes) (Z : List Cplx) (scale : ℚ)
    (units fmt : String) (kwargs : List (String × String)) (_hs : 0 < scale) :
    (plot_nyquist ax Z scale units fmt kwargs).xMajorFormatter =
      some (FixedOrderFormatter.init (-Real.logb 10 (scale : ℝ))) ∧
    (plot_nyquist ax Z scale units fmt kwargs).yMajorFormatter =
      some (FixedOrderFormatter.init (-Real.logb 10 (scale : ℝ))) ∧
    ∀ (fo : FixedOrderFormatter) (r1 r2 : ℝ),
      (fo.set_orderOfMagnitude r1).orderOfMagnitude = fo.order_of_mag ∧
      fo.set_orderOfMagnitude r1 = fo.set_orderOfMagnitude r2 :=
  ⟨rfl, rfl, fun _ _ _ => ⟨rfl, rfl⟩⟩

/-- C5 witness at `scale = 100`. -/
theorem tick_exponent_pinned_witness :
    0 < (100 : ℚ) ∧
    ((plot_nyquist ax0 Zsample 100 "Ohms" ".-" []).xMajorFormatter =
      some (FixedOrderFormatter.init (-Real.logb 10 ((100 : ℚ) : ℝ))) ∧
    (plot_nyquist ax0 Zsample 100 "Ohms" ".-" []).yMajorFormatter =
      some (FixedOrderFormatter.init (-Real.logb 10 ((100 : ℚ) : ℝ))) ∧
    ∀ (fo : FixedOrderFormatter) (r1 r2 : ℝ),
      (fo.set_orderOfMagnitude r1).orderOfMagnitude = fo.order_of_mag ∧
      fo.set_orderOfMagnitude r1 = fo.set_orderOfMagnitude r2) :=
  ⟨by norm_num, tick_exponent_pinned ax0 Zsample 100 "Ohms" ".-" []
    (by norm_num)⟩

/-- C6: on a non-empty flattened collection, if every row is line-tagged the
returned chart has sub-charts but none carries a selection or pan/zoom; if
every row is point-tagged, every sub-chart carries the shared nearest hover
selection (keyed on the frequency field) and pan/zoom. -/
theorem style_decides_interactivity (data : List (String × Dataset))
    (size : ℚ) (hne : flattenData data ≠ []) :
    ∃ c, plot_altair data size = some c ∧
      ((∀ r ∈ flattenData data, r.fmt = "-") →
        c.subCharts ≠ [] ∧
        ∀ sc ∈ c.subCharts, sc.sel = none ∧ sc.zoomable = false) ∧
      ((∀ r ∈ flattenData data, r.fmt = "o") →
        c.subCharts ≠ [] ∧
        ∀ sc ∈ c.subCharts,
          sc.sel = some nearestSelection ∧ nearestSelection.nearest = true ∧
          nearestSelection.fields = ["f"] ∧ sc.zoomable = true) := by
  obtain ⟨r0, hr0⟩ := List.exists_mem_of_ne_nil _ hne
  refine ⟨altairChart (flattenData data) size, plot_altair_some hne, ?_, ?_⟩
  · intro hall
    have hdash : "-" ∈ rowFmts (flattenData data) :=
      mem_rowFmts.2 ⟨r0, hr0, hall r0 hr0⟩
    have hno : "o" ∉ rowFmts (flattenData data) := by
      intro h
      obtain ⟨r, hr, ho⟩ := mem_rowFmts.1 h
      rw [hall r hr] at ho
      exact absurd ho (by decide)
    refine ⟨List.ne_nil_of_mem (mem_subCharts_altair.2 (Or.inr (Or.inr
      (mem_altairNyquists.2 (Or.inl ⟨hdash, rfl⟩))))), ?_⟩
    intro sc hsc
    rcases mem_subCharts_altair.1 hsc with h | h | h <;>
      rcases (by first | exact mem_altairBodes.1 h
                       | exact mem_altairNyquists.1 h :
          _ ∨ ("o" ∈ rowFmts (flattenData data) ∧ _)) with ⟨-, rfl⟩ | ⟨ho, -⟩ <;>
      first
        | exact ⟨rfl, rfl⟩
        | exact absurd ho hno
  · intro hall
    have hpoint : "o" ∈ rowFmts (flattenData data) :=
      mem_rowFmts.2 ⟨r0, hr0, hall r0 hr0⟩
    have hnd : "-" ∉ rowFmts (flattenData data) := by
      intro h
      obtain ⟨r, hr, hd⟩ := mem_rowFmts.1 h
      rw [hall r hr] at hd
      exact absurd hd (by decide)
    refine ⟨List.ne_nil_of_mem (mem_subCharts_altair.2 (Or.inr (Or.inr
      (mem_altairNyquists.2 (Or.inr ⟨hpoint, rfl⟩))))), ?_⟩
    intro sc hsc
    rcases mem_subCharts_altair.1 hsc with h | h | h <;>
      rcases (by first | exact mem_altairBodes.1 h
                       | exact mem_altairNyquists.1 h :
          ("-" ∈ rowFmts (flattenData data) ∧ _) ∨ _) with ⟨hd, -⟩ | ⟨-, rfl⟩ <;>
      first
        | exact absurd hd hnd
        | exact ⟨rfl, rfl, rfl, rfl⟩

/-- C6 witness at the all-point sample collection. -/
theorem style_decides_interactivity_witness :
    flattenData allPointData ≠ [] ∧
    (∃ c, plot_altair allPointData 400 = some c ∧
      ((∀ r ∈ flattenData allPointData, r.fmt = "-") →
        c.subCharts ≠ [] ∧
        ∀ sc ∈ c.subCharts, sc.sel = none ∧ sc.zoomable = false) ∧
      ((∀ r ∈ flattenData allPointData, r.fmt = "o") →
        c.subCharts ≠ [] ∧
        ∀ sc ∈ c.subCharts,
          sc.sel = some nearestSelection ∧ nearestSelection.nearest = true ∧
          nearestSelection.fields = ["f"] ∧ sc.zoomable = true)) :=
  ⟨by decide, style_decides_interactivity allPointData 400 (by decide)⟩

/-- C7: a row whose marker tag is neither "-" nor "o" causes no error — the
chart is still produced — but the row is bound to no sub-chart of any panel;
and when a recognized style is absent from the table, no sub-chart of that
style's mark appears in any panel. -/
theorem unrecognized_fmt_dropped (data : List (String × Dataset)) (size : ℚ)
    (r : Row) (hr : r ∈ flattenData data) (h1 : r.fmt ≠ "-")
    (h2 : r.fmt ≠ "o") :
    ∃ c, plot_altair data size = some c ∧
      (∀ sc ∈ c.subCharts, r ∉ sc.data) ∧
      ((¬ ∃ q ∈ flattenData data, q.fmt = "-") →
        ∀ sc ∈ c.subCharts, sc.mark ≠ Mark.line) ∧
      ((¬ ∃ q ∈ flattenData data, q.fmt = "o") →
        ∀ sc ∈ c.subCharts, sc.mark ≠ Mark.circle) := by
  have hne : flattenData data ≠ [] := List.ne_nil_of_mem hr
  refine ⟨altairChart (flattenData data) size, plot_altair_some hne, ?_, ?_, ?_⟩
  · intro sc hsc hmem
    rcases mem_subCharts_altair.1 hsc with h | h | h <;>
      rcases (by first | exact mem_altairBodes.1 h
                       | exact mem_altairNyquists.1 h :
          (_ ∧ sc = _) ∨ (_ ∧ sc = _)) with ⟨-, rfl⟩ | ⟨-, rfl⟩ <;>
      first
        | exact h1 (of_decide_eq_true (List.mem_filter.1 hmem).2)
        | exact h2 (of_decide_eq_true (List.mem_filter.1 hmem).2)
  · intro hnone sc hsc
    have hnd : "-" ∉ rowFmts (flattenData data) := fun h =>
      hnone (mem_rowFmts.1 h)
    rcases mem_subCharts_altair.1 hsc with h | h | h
    · rcases mem_altairBodes.1 h with ⟨hd, -⟩ | ⟨-, rfl⟩
      · exact absurd hd hnd
      · simp [mkBodeChart]
    · rcases mem_altairBodes.1 h with ⟨hd, -⟩ | ⟨-, rfl⟩
      · exact absurd hd hnd
      · simp [mkBodeChart]
    · rcases mem_altairNyquists.1 h with ⟨hd, -⟩ | ⟨-, rfl⟩
      · exact absurd hd hnd
      · simp [mkNyquistChart]
  · intro hnone sc hsc
    have hno : "o" ∉ rowFmts (flattenData data) := fun h =>
      hnone (mem_rowFmts.1 h)
    rcases mem_subCharts_altair.1 hsc with h | h | h
    · rcases mem_altairBodes.1 h with ⟨-, rfl⟩ | ⟨ho, -⟩
      · simp [mkBodeChart]
      · exact absurd ho hno
    · rcases mem_altairBodes.1 h with ⟨-, rfl⟩ | ⟨ho, -⟩
      · simp [mkBodeChart]
      · exact absurd ho hno
    · rcases mem_altairNyquists.1 h with ⟨-, rfl⟩ | ⟨ho, -⟩
      · simp [mkNyquistChart]
      · exact absurd ho hno

/-- C7 witness: the single "x"-tagged row of `weirdData` is dropped from
every panel and neither mark appears, yet a chart is returned. -/
theorem unrecognized_fmt_dropped_witness :
    ({ f := 5, z_real := 1, z_imag := 2, kind := "odd", fmt := "x" } : Row) ∈
        flattenData weirdData ∧
    ({ f := 5, z_real := 1, z_imag := 2, kind := "odd", fmt := "x" } : Row).fmt
        ≠ "-" ∧
    ({ f := 5, z_real := 1, z_imag := 2, kind := "odd", fmt := "x" } : Row).fmt
        ≠ "o" ∧
    (∃ c, plot_altair weirdData 400 = some c ∧
      (∀ sc ∈ c.subCharts,
        ({ f := 5, z_real := 1, z_imag := 2, kind := "odd", fmt := "x" } :
          Row) ∉ sc.data) ∧
      ((¬ ∃ q ∈ flattenData weirdData, q.fmt = "-") →
        ∀ sc ∈ c.subCharts, sc.mark ≠ Mark.line) ∧
      ((¬ ∃ q ∈ flattenData weirdData, q.fmt = "o") →
        ∀ sc ∈ c.subCharts, sc.mark ≠ Mark.circle)) :=
  ⟨by decide, by decide, by decide,
    unrecognized_fmt_dropped weirdData 400
      { f := 5, z_real := 1, z_imag := 2, kind := "odd", fmt := "x" }
      (by decide) (by decide) (by decide)⟩

/-- C8: at the object level, `plot_nyquist` returns the identity of the very
axes object it was given, that object is the one mutated (populated by the
plot call), every other heap slot is untouched, and no slot is created or
destroyed — no new drawing surface exists after the call. -/
theorem plot_nyquist_returns_same_axes (heap : ℕ → Option Axes) (i : ℕ)
    (Z : List Cplx) (scale : ℚ) (units fmt : String)
    (kwargs : List (String × String)) :
    (plot_nyquist_obj heap i Z scale units fmt kwargs).2 = i ∧
    (plot_nyquist_obj heap i Z scale units fmt kwargs).1 i =
      (heap i).map (fun ax => plot_nyquist ax Z scale units fmt kwargs) ∧
    (∀ j, j ≠ i → (plot_nyquist_obj heap i Z scale units fmt kwargs).1 j =
      heap j) ∧
    (∀ j, ((plot_nyquist_obj heap i Z scale units fmt kwargs).1 j).isSome =
      (heap j).isSome) := by
  refine ⟨rfl, by simp [plot_nyquist_obj], fun j hj => by
    simp [plot_nyquist_obj, hj], fun j => ?_⟩
  by_cases hj : j = i
  · subst hj
    rcases h : heap j with - | ax <;> simp [plot_nyquist_obj, h]
  · simp [plot_nyquist_obj, hj]

/-- C9: the value returned by `plot_altair` is a single composed chart whose
layout is the layered magnitude Bode sub-charts stacked vertically above the
layered phase Bode sub-charts, with that Bode stack placed side by side to
the left of the layered Nyquist sub-charts. -/
theorem layout_bode_stack_beside_nyquist (data : List (String × Dataset))
    (size : ℚ) (hne : flattenData data ≠ []) :
    ∃ ms ps ns,
      plot_altair data size =
        some (Chart.hconcat
          (Chart.vconcat (Chart.layer ms) (Chart.layer ps))
          (Chart.layer ns)) ∧
      (∀ sc ∈ ms, sc.xField = "f" ∧ sc.yField = "mag") ∧
      (∀ sc ∈ ps, sc.xField = "f" ∧ sc.yField = "neg_phase") ∧
      (∀ sc ∈ ns, sc.xField = "z_real" ∧ sc.yField = "neg_z_imag") := by
  refine ⟨altairBodes (flattenData data) size "mag" "|Z| [Ω]",
    altairBodes (flattenData data) size "neg_phase" "-ϕ [°]",
    altairNyquists (flattenData data) size,
    plot_altair_some hne, ?_, ?_, ?_⟩
  · intro sc hsc
    rcases mem_altairBodes.1 hsc with ⟨-, rfl⟩ | ⟨-, rfl⟩ <;> exact ⟨rfl, rfl⟩
  · intro sc hsc
    rcases mem_altairBodes.1 hsc with ⟨-, rfl⟩ | ⟨-, rfl⟩ <;> exact ⟨rfl, rfl⟩
  · intro sc hsc
    rcases mem_altairNyquists.1 hsc with ⟨-, rfl⟩ | ⟨-, rfl⟩ <;>
      exact ⟨rfl, rfl⟩

/-- C9 witness at the two-dataset sample collection. -/
theorem layout_bode_stack_beside_nyquist_witness :
    flattenData sampleData ≠ [] ∧
    (∃ ms ps ns,
      plot_altair sampleData 400 =
        some (Chart.hconcat
          (Chart.vconcat (Chart.layer ms) (Chart.layer ps))
          (Chart.layer ns)) ∧
      (∀ sc ∈ ms, sc.xField = "f" ∧ sc.yField = "mag") ∧
      (∀ sc ∈ ps, sc.xField = "f" ∧ sc.yField = "neg_phase") ∧
      (∀ sc ∈ ns, sc.xField = "z_real" ∧ sc.yField = "neg_z_imag")) :=
  ⟨by decide, layout_bode_stack_beside_nyquist sampleData 400 (by decide)⟩

/-- C10: a dataset that omits the fmt tag is point-styled: each of its rows
carries the defaulted tag "o", belongs to the data of a circle-marked
Nyquist sub-chart carrying the nearest hover selection and pan/zoom, and
belongs to no line-marked sub-chart. -/
theorem omitted_fmt_defaults_to_point (data : List (String × Dataset))
    (size : ℚ) (k : String) (ds : Dataset) (hmem : (k, ds) ∈ data)
    (hfmt : ds.fmt = none) (r : Row) (hr : r ∈ datasetRows k ds) :
    r.fmt = "o" ∧
    ∃ c, plot_altair data size = some c ∧
      (∃ sc ∈ c.subCharts, sc.xField = "z_real" ∧ sc.mark = Mark.circle ∧
        sc.sel = some nearestSelection ∧ sc.zoomable = true ∧ r ∈ sc.data) ∧
      (∀ sc ∈ c.subCharts, sc.mark = Mark.line → r ∉ sc.data) := by
  have hfo : r.fmt = "o" := by
    obtain ⟨p, -, rfl⟩ := List.mem_map.1 hr
    simp [hfmt]
  have hrflat : r ∈ flattenData data :=
    List.mem_flatMap.2 ⟨(k, ds), hmem, hr⟩
  have hne : flattenData data ≠ [] := List.ne_nil_of_mem hrflat
  have hofmts : "o" ∈ rowFmts (flattenData data) :=
    mem_rowFmts.2 ⟨r, hrflat, hfo⟩
  refine ⟨hfo, altairChart (flattenData data) size, plot_altair_some hne,
    ⟨_, mem_subCharts_altair.2 (Or.inr (Or.inr
      (mem_altairNyquists.2 (Or.inr ⟨hofmts, rfl⟩)))),
      rfl, rfl, rfl, rfl, List.mem_filter.2 ⟨hrflat, by simp [hfo]⟩⟩, ?_⟩
  intro sc hsc hmark hmem'
  rcases mem_subCharts_altair.1 hsc with h | h | h
  · rcases mem_altairBodes.1 h with ⟨-, rfl⟩ | ⟨-, rfl⟩
    · exact absurd (of_decide_eq_true (List.mem_filter.1 hmem').2)
        (by rw [hfo]; decide)
    · exact absurd hmark (by simp [mkBodeChart])
  · rcases mem_altairBodes.1 h with ⟨-, rfl⟩ | ⟨-, rfl⟩
    · exact absurd (of_decide_eq_true (List.mem_filter.1 hmem').2)
        (by rw [hfo]; decide)
    · exact absurd hmark (by simp [mkBodeChart])
  · rcases mem_altairNyquists.1 h with ⟨-, rfl⟩ | ⟨-, rfl⟩
    · exact absurd (of_decide_eq_true (List.mem_filter.1 hmem').2)
        (by rw [hfo]; decide)
    · exact absurd hmark (by simp [mkNyquistChart])

/-- C10 witness: the single row of the fmt-less dataset of `noFmtData` gets
the point treatment. -/
theorem omitted_fmt_defaults_to_point_witness :
    ("bare", ({ f := [3], Z := [⟨7, -8⟩], fmt := none } : Dataset)) ∈
        noFmtData ∧
    ({ f := [3], Z := [⟨7, -8⟩], fmt := none } : Dataset).fmt = none ∧
    ({ f := 3, z_real := 7, z_imag := -8, kind := "bare", fmt := "o" } : Row) ∈
        datasetRows "bare" { f := [3], Z := [⟨7, -8⟩], fmt := none } ∧
    (({ f := 3, z_real := 7, z_imag := -8, kind := "bare", fmt := "o" } :
        Row).fmt = "o" ∧
    ∃ c, plot_altair noFmtData 400 = some c ∧
      (∃ sc ∈ c.subCharts, sc.xField = "z_real" ∧ sc.mark = Mark.circle ∧
        sc.sel = some nearestSelection ∧ sc.zoomable = true ∧
        ({ f := 3, z_real := 7, z_imag := -8, kind := "bare", fmt := "o" } :
          Row) ∈ sc.data) ∧
      (∀ sc ∈ c.subCharts, sc.mark = Mark.line →
        ({ f := 3, z_real := 7, z_imag := -8, kind := "bare", fmt := "o" } :
          Row) ∉ sc.data)) :=
  ⟨by decide, by decide, by decide,
    omitted_fmt_defaults_to_point noFmtData 400 "bare"
      { f := [3], Z := [⟨7, -8⟩], fmt := none } (by decide) (by decide)
      { f := 3, z_real := 7, z_imag := -8, kind := "bare", fmt := "o" }
      (by decide)⟩
